import Mathlib

/-!
Verification of the paginated record-import and de-duplication pipeline of the
gearjot-poc repository.  The pipeline is the `GET` handler of the import API
route (src/unnamed/part_000): it validates the request, classifies the action
as default or custom via the `get-` naming convention, resolves the tenant's
first connection, then loops over cursor pages of an external action, and for
each returned record performs a find-then-insert against the record store
keyed by (id, customerId, recordType), counting new vs existing records.

The embedding is shallow: JavaScript strings that may be `null`/`undefined`
or empty (falsy) are `Option String` together with the truthiness test
`strTruthy`; the MongoDB collection is a list of stored records with
`findOne` as a linear scan and `create` as an append; the external action
source is a finite script of pages, one page consumed per loop iteration,
with the loop continuing exactly while the returned cursor is truthy.
-/

/-- Truthiness of a JavaScript string value: `null`/`undefined` (`none`) and
the empty string are falsy, every other string is truthy. -/
def strTruthy : Option String → Bool
  | none => false
  | some s => s != ""

/-- Raw record as returned by the external action (`result.output.records`):
only the fields the pipeline inspects, `id` and `name`, both possibly
absent. -/
structure RawRecord where
  id : Option String
  name : Option String
deriving Repr, DecidableEq

/-- Record as stored by `Record.create`: the raw fields after the pipeline's
normalization map, which forces a `name`, and stamps `customerId` and
`recordType`. -/
structure StoredRecord where
  id : Option String
  name : String
  customerId : String
  recordType : Option String
deriving Repr, DecidableEq

/-- One page of the scripted external source: the batch of records
(`result.output.records || []`) and the next cursor
(`result.output.cursor`). -/
structure Page where
  records : List RawRecord
  cursor : Option String
deriving Repr, DecidableEq

/-- Display-name fallback of the normalization map:
`record.name || record.id || "Unnamed Record"`. -/
def displayName (r : RawRecord) : String :=
  if strTruthy r.name then r.name.getD ""
  else if strTruthy r.id then r.id.getD ""
  else "Unnamed Record"

/-- Normalization performed by `records.map` before saving: keep the raw
fields, force the `name` fallback, stamp `customerId` and `recordType`. -/
def normalizeRecord (cid : String) (rt : Option String) (r : RawRecord) : StoredRecord :=
  { id := r.id, name := displayName r, customerId := cid, recordType := rt }

/-- The `Record.findOne({id, customerId, recordType})` existence check:
does the store hold a record with exactly this key triple. -/
def keyInStore (store : List StoredRecord) (i : Option String) (c : String)
    (t : Option String) : Bool :=
  store.any fun s => s.id == i && s.customerId == c && s.recordType == t

/-- Mutable state of the import loop: the record store plus the counters
`newRecordsCount`, `existingRecordsCount`, the accumulated record total
(`allRecords.length`) and the number of external action calls issued. -/
structure LoopState where
  store : List StoredRecord
  newCount : Nat
  existingCount : Nat
  total : Nat
  calls : Nat
deriving Repr, DecidableEq

/-- Body of the per-record for-loop: `findOne` on (id, customerId,
recordType); if found, bump `existingRecordsCount`, else `Record.create`
(append) and bump `newRecordsCount`. -/
def saveOne (cid : String) (st : LoopState) (rec : StoredRecord) : LoopState :=
  if keyInStore st.store rec.id cid rec.recordType then
    { st with existingCount := st.existingCount + 1 }
  else
    { st with store := st.store ++ [rec], newCount := st.newCount + 1 }

/-- The per-record loop over one normalized batch (`recordsToSave`). -/
def saveBatch (cid : String) (recs : List StoredRecord) (st : LoopState) : LoopState :=
  recs.foldl (saveOne cid) st

/-- One iteration of the cursor loop: issue the external call, append the
returned batch to `allRecords`, and when the batch is non-empty, build
`recordsToSave` and save it record by record. -/
def processPage (cid : String) (rt : Option String) (p : Page) (st : LoopState) : LoopState :=
  let st1 : LoopState := { st with total := st.total + p.records.length, calls := st.calls + 1 }
  if p.records.length > 0 then
    saveBatch cid (p.records.map (normalizeRecord cid rt)) st1
  else st1

/-- The cursor loop over a finite script of pages: each iteration consumes
the next scripted page; the loop continues exactly while the page's cursor
is truthy (`hasMoreRecords = !!currentCursor`). -/
def runPages (cid : String) (rt : Option String) : List Page → LoopState → LoopState
  | [], st => st
  | p :: rest, st =>
    let st1 := processPage cid rt p st
    if strTruthy p.cursor then runPages cid rt rest st1 else st1

/-- The whole import loop, started on an initial store with all counters
zero. -/
def importLoop (cid : String) (rt : Option String) (script : List Page)
    (store0 : List StoredRecord) : LoopState :=
  runPages cid rt script { store := store0, newCount := 0, existingCount := 0, total := 0, calls := 0 }

/-- Records the loop actually observes: the concatenation of the batches of
the pages it consumes (it consumes a page, then continues only on a truthy
cursor). -/
def consumedRecords : List Page → List RawRecord
  | [] => []
  | p :: rest => p.records ++ (if strTruthy p.cursor then consumedRecords rest else [])

/-- Number of external action calls the loop issues on a script. -/
def numCalls : List Page → Nat
  | [] => 0
  | p :: rest => 1 + (if strTruthy p.cursor then numCalls rest else 0)

/-- Form id extraction: `actionKey.startsWith("get-") ? actionKey.substring(4) : null`.
The test and the substring are phrased on the character list of the key (the
four characters of "get-" are ASCII, one code unit each) so that the
definition evaluates by kernel reduction. -/
def formIdOf (actionKey : String) : Option String :=
  if actionKey.data.take 4 = "get-".data then some (String.mk (actionKey.data.drop 4))
  else none

/-- Custom-form classification: `formId && !defaultFormTypes.includes(formId)`
(a falsy `formId`, i.e. `null` or the empty string, is not custom). -/
def isCustomForm (defaults : List String) (actionKey : String) : Bool :=
  match formIdOf actionKey with
  | none => false
  | some f => (f != "") && !(defaults.contains f)

/-- The `recordType` stamped on saved records:
`isCustomForm ? instanceKey : actionKey`. -/
def stampedRecordType (defaults : List String) (actionKey : String)
    (instanceKey : Option String) : Option String :=
  if isCustomForm defaults actionKey then instanceKey else some actionKey

/-- Request as the handler sees it: the authenticated customer id
(`auth.customerId`), and the `action` and `instanceKey` query parameters,
each possibly absent. -/
structure ImportRequest where
  authCustomerId : Option String
  action : Option String
  instanceKey : Option String
deriving Repr, DecidableEq

/-- The handler's distinguishable responses: 401 Unauthorized, the two 400
validations, the soft `{success: false, error: "No connection found"}`
result, and the success summary
`{recordsCount, newRecordsCount, existingRecordsCount}`. -/
inductive ApiResult where
  | unauthorized
  | actionKeyRequired
  | instanceKeyRequired
  | noConnection
  | ok (recordsCount newRecordsCount existingRecordsCount : Nat)
deriving Repr, DecidableEq

/-- Environment of one invocation: the default form types derived from
`RECORD_ACTIONS`, the tenant's connections as listed by
`client.connections.find()`, the scripted external source, and the initial
record store. -/
structure Env where
  defaults : List String
  connections : List String
  script : List Page
  store0 : List StoredRecord
deriving Repr, DecidableEq

/-- Observable outcome of one handler invocation: the response, the final
record store, and the number of external action calls issued. -/
structure HandlerOutcome where
  response : ApiResult
  store : List StoredRecord
  externalCalls : Nat
deriving Repr, DecidableEq

/-- The `GET` handler of the import route (src/unnamed/part_000): reject a
falsy `auth.customerId` (401), a falsy `action` parameter (400), and a
custom-form action without a truthy `instanceKey` (400); return the soft
no-connection result when the tenant has no connections; otherwise run the
cursor loop with the stamped `recordType` and return the summary. -/
def handleGET (env : Env) (req : ImportRequest) : HandlerOutcome :=
  if strTruthy req.authCustomerId then
    if strTruthy req.action then
      let actionKey := req.action.getD ""
      if isCustomForm env.defaults actionKey && !(strTruthy req.instanceKey) then
        { response := .instanceKeyRequired, store := env.store0, externalCalls := 0 }
      else
        match env.connections.head? with
        | none => { response := .noConnection, store := env.store0, externalCalls := 0 }
        | some _ =>
          let cid := req.authCustomerId.getD ""
          let rt := stampedRecordType env.defaults actionKey req.instanceKey
          let st := importLoop cid rt env.script env.store0
          { response := .ok st.total st.newCount st.existingCount,
            store := st.store, externalCalls := st.calls }
    else { response := .actionKeyRequired, store := env.store0, externalCalls := 0 }
  else { response := .unauthorized, store := env.store0, externalCalls := 0 }

/-- Modelled from the spec: the fixed set of default record types (the
`RECORD_ACTIONS` entries of type "default" with the `get-` part of their key
removed).  The file src/lib/constants.ts defining `RECORD_ACTIONS` is not
part of the provided sources; the spec names equipment, contacts and
companies as the default categories. -/
def defaultFormTypes : List String := ["equipment", "contacts", "companies"]

/-- Key triple of a stored record. -/
def keyOf (s : StoredRecord) : Option String × String × Option String :=
  (s.id, s.customerId, s.recordType)

/-- Uniqueness invariant of the store: no two stored records share the
(id, customerId, recordType) triple. -/
def uniqueKeys (store : List StoredRecord) : Prop :=
  (store.map keyOf).Nodup

instance (store : List StoredRecord) : Decidable (uniqueKeys store) :=
  inferInstanceAs (Decidable (store.map keyOf).Nodup)

theorem saveBatch_nil (cid : String) (st : LoopState) : saveBatch cid [] st = st := rfl

theorem saveBatch_cons (cid : String) (r : StoredRecord) (rs : List StoredRecord)
    (st : LoopState) : saveBatch cid (r :: rs) st = saveBatch cid rs (saveOne cid st r) := rfl

theorem saveOne_total (cid : String) (st : LoopState) (rec : StoredRecord) :
    (saveOne cid st rec).total = st.total := by
  unfold saveOne; split <;> rfl

theorem saveOne_calls (cid : String) (st : LoopState) (rec : StoredRecord) :
    (saveOne cid st rec).calls = st.calls := by
  unfold saveOne; split <;> rfl

theorem saveOne_counts (cid : String) (st : LoopState) (rec : StoredRecord) :
    (saveOne cid st rec).newCount + (saveOne cid st rec).existingCount
      = st.newCount + st.existingCount + 1 := by
  unfold saveOne; split <;> simp <;> omega

theorem saveOne_store (cid : String) (st : LoopState) (rec : StoredRecord) :
    ∃ t, (saveOne cid st rec).store = st.store ++ t ∧ ∀ x ∈ t, x = rec := by
  unfold saveOne; split
  · exact ⟨[], by simp⟩
  · exact ⟨[rec], rfl, by simp⟩

theorem saveBatch_total (cid : String) (recs : List StoredRecord) (st : LoopState) :
    (saveBatch cid recs st).total = st.total := by
  induction recs generalizing st with
  | nil => rfl
  | cons r rs ih => rw [saveBatch_cons, ih, saveOne_total]

theorem saveBatch_calls (cid : String) (recs : List StoredRecord) (st : LoopState) :
    (saveBatch cid recs st).calls = st.calls := by
  induction recs generalizing st with
  | nil => rfl
  | cons r rs ih => rw [saveBatch_cons, ih, saveOne_calls]

theorem saveBatch_counts (cid : String) (recs : List StoredRecord) (st : LoopState) :
    (saveBatch cid recs st).newCount + (saveBatch cid recs st).existingCount
      = st.newCount + st.existingCount + recs.length := by
  induction recs generalizing st with
  | nil => simp [saveBatch_nil]
  | cons r rs ih =>
    rw [saveBatch_cons, ih, saveOne_counts]
    simp; omega

theorem saveBatch_store (cid : String) (recs : List StoredRecord) (st : LoopState) :
    ∃ t, (saveBatch cid recs st).store = st.store ++ t ∧ ∀ x ∈ t, x ∈ recs := by
  induction recs generalizing st with
  | nil => exact ⟨[], by simp [saveBatch_nil]⟩
  | cons r rs ih =>
    rw [saveBatch_cons]
    obtain ⟨t2, ht2, hm2⟩ := ih (saveOne cid st r)
    obtain ⟨t1, ht1, hm1⟩ := saveOne_store cid st r
    refine ⟨t1 ++ t2, ?_, ?_⟩
    · rw [ht2, ht1, List.append_assoc]
    · intro x hx
      rcases List.mem_append.mp hx with h | h
      · rw [hm1 x h]; exact List.mem_cons_self r rs
      · exact List.mem_cons_of_mem r (hm2 x h)

theorem keyInStore_mono (store ext : List StoredRecord) (i : Option String)
    (c : String) (t : Option String) (h : keyInStore store i c t = true) :
    keyInStore (store ++ ext) i c t = true := by
  simp only [keyInStore, List.any_append, Bool.or_eq_true]
  exact Or.inl h

theorem saveOne_key (cid : String) (st : LoopState) (rec : StoredRecord)
    (hc : rec.customerId = cid) :
    keyInStore (saveOne cid st rec).store rec.id cid rec.recordType = true := by
  unfold saveOne
  by_cases h : keyInStore st.store rec.id cid rec.recordType = true
  · rw [if_pos h]; exact h
  · rw [if_neg h]
    simp [keyInStore, hc]

theorem saveOne_existing (cid : String) (st : LoopState) (rec : StoredRecord)
    (h : keyInStore st.store rec.id cid rec.recordType = true) :
    saveOne cid st rec = { st with existingCount := st.existingCount + 1 } := by
  unfold saveOne; rw [if_pos h]

theorem saveBatch_keys (cid : String) (recs : List StoredRecord) (st : LoopState)
    (hc : ∀ r ∈ recs, r.customerId = cid) :
    ∀ r ∈ recs, keyInStore (saveBatch cid recs st).store r.id cid r.recordType = true := by
  induction recs generalizing st with
  | nil => intro r hr; cases hr
  | cons a rs ih =>
    intro r hr
    rw [saveBatch_cons]
    rcases List.mem_cons.mp hr with rfl | h
    · obtain ⟨t, ht, _⟩ := saveBatch_store cid rs (saveOne cid st r)
      rw [ht]
      exact keyInStore_mono _ _ _ _ _ (saveOne_key cid st r (hc r hr))
    · exact ih (saveOne cid st a) (fun x hx => hc x (List.mem_cons_of_mem a hx)) r h

theorem saveBatch_existing (cid : String) (recs : List StoredRecord) (st : LoopState)
    (h : ∀ r ∈ recs, keyInStore st.store r.id cid r.recordType = true) :
    saveBatch cid recs st = { st with existingCount := st.existingCount + recs.length } := by
  induction recs generalizing st with
  | nil => cases st; simp [saveBatch_nil]
  | cons a rs ih =>
    obtain ⟨store, nc, ec, tot, cl⟩ := st
    rw [saveBatch_cons, saveOne_existing _ _ _ (h a (List.mem_cons_self a rs))]
    rw [ih ⟨store, nc, ec + 1, tot, cl⟩ (fun r hr => h r (List.mem_cons_of_mem a hr))]
    simp; omega

theorem saveOne_uniqueKeys (cid : String) (st : LoopState) (rec : StoredRecord)
    (hc : rec.customerId = cid) (h : uniqueKeys st.store) :
    uniqueKeys (saveOne cid st rec).store := by
  unfold saveOne
  by_cases hk : keyInStore st.store rec.id cid rec.recordType = true
  · rw [if_pos hk]; exact h
  · rw [if_neg hk]
    unfold uniqueKeys at h ⊢
    rw [List.map_append, List.map_singleton]
    rw [List.nodup_append]
    refine ⟨h, List.nodup_singleton _, ?_⟩
    intro k hk1 hk2
    simp only [List.mem_singleton] at hk2
    subst hk2
    obtain ⟨s, hs, hks⟩ := List.mem_map.mp hk1
    apply hk
    simp only [keyInStore, List.any_eq_true]
    refine ⟨s, hs, ?_⟩
    have h1 : s.id = rec.id := congrArg Prod.fst hks
    have h2 : s.customerId = rec.customerId := congrArg (Prod.fst ∘ Prod.snd) hks
    have h3 : s.recordType = rec.recordType := congrArg (Prod.snd ∘ Prod.snd) hks
    simp [h1, h2, h3, hc]

theorem saveBatch_uniqueKeys (cid : String) (recs : List StoredRecord) (st : LoopState)
    (hc : ∀ r ∈ recs, r.customerId = cid) (h : uniqueKeys st.store) :
    uniqueKeys (saveBatch cid recs st).store := by
  induction recs generalizing st with
  | nil => exact h
  | cons a rs ih =>
    rw [saveBatch_cons]
    exact ih (saveOne cid st a) (fun x hx => hc x (List.mem_cons_of_mem a hx))
      (saveOne_uniqueKeys cid st a (hc a (List.mem_cons_self a rs)) h)

theorem processPage_eq (cid : String) (rt : Option String) (p : Page) (st : LoopState) :
    processPage cid rt p st = saveBatch cid (p.records.map (normalizeRecord cid rt))
      { st with total := st.total + p.records.length, calls := st.calls + 1 } := by
  unfold processPage
  cases hp : p.records with
  | nil => simp [saveBatch_nil]
  | cons a l => simp

theorem processPage_total (cid : String) (rt : Option String) (p : Page) (st : LoopState) :
    (processPage cid rt p st).total = st.total + p.records.length := by
  rw [processPage_eq, saveBatch_total]

theorem processPage_calls (cid : String) (rt : Option String) (p : Page) (st : LoopState) :
    (processPage cid rt p st).calls = st.calls + 1 := by
  rw [processPage_eq, saveBatch_calls]

theorem processPage_counts (cid : String) (rt : Option String) (p : Page) (st : LoopState) :
    (processPage cid rt p st).newCount + (processPage cid rt p st).existingCount
      = st.newCount + st.existingCount + p.records.length := by
  rw [processPage_eq, saveBatch_counts]
  simp

theorem processPage_store (cid : String) (rt : Option String) (p : Page) (st : LoopState) :
    ∃ t, (processPage cid rt p st).store = st.store ++ t ∧
      ∀ x ∈ t, ∃ r ∈ p.records, x = normalizeRecord cid rt r := by
  rw [processPage_eq]
  obtain ⟨t, ht, hm⟩ := saveBatch_store cid (p.records.map (normalizeRecord cid rt))
    { st with total := st.total + p.records.length, calls := st.calls + 1 }
  refine ⟨t, ht, ?_⟩
  intro x hx
  obtain ⟨r, hr, hrx⟩ := List.mem_map.mp (hm x hx)
  exact ⟨r, hr, hrx.symm⟩

theorem processPage_keys (cid : String) (rt : Option String) (p : Page) (st : LoopState) :
    ∀ r ∈ p.records, keyInStore (processPage cid rt p st).store r.id cid rt = true := by
  intro r hr
  rw [processPage_eq]
  have h := saveBatch_keys cid (p.records.map (normalizeRecord cid rt))
    { st with total := st.total + p.records.length, calls := st.calls + 1 }
    (by intro x hx
        obtain ⟨r0, _, hx0⟩ := List.mem_map.mp hx
        rw [← hx0]; rfl)
    (normalizeRecord cid rt r) (List.mem_map_of_mem _ hr)
  exact h

theorem processPage_existing (cid : String) (rt : Option String) (p : Page) (st : LoopState)
    (h : ∀ r ∈ p.records, keyInStore st.store r.id cid rt = true) :
    processPage cid rt p st =
      { st with
        existingCount := st.existingCount + p.records.length,
        total := st.total + p.records.length,
        calls := st.calls + 1 } := by
  obtain ⟨store, nc, ec, tot, cl⟩ := st
  rw [processPage_eq]
  rw [saveBatch_existing cid (p.records.map (normalizeRecord cid rt))
    ⟨store, nc, ec, tot + p.records.length, cl + 1⟩
    (by intro x hx
        obtain ⟨r0, hr0, hx0⟩ := List.mem_map.mp hx
        rw [← hx0]
        exact h r0 hr0)]
  simp

theorem processPage_uniqueKeys (cid : String) (rt : Option String) (p : Page) (st : LoopState)
    (h : uniqueKeys st.store) : uniqueKeys (processPage cid rt p st).store := by
  rw [processPage_eq]
  exact saveBatch_uniqueKeys cid (p.records.map (normalizeRecord cid rt))
    { st with total := st.total + p.records.length, calls := st.calls + 1 }
    (by intro x hx
        obtain ⟨r0, _, hx0⟩ := List.mem_map.mp hx
        rw [← hx0]; rfl)
    h

theorem runPages_total (cid : String) (rt : Option String) (s : List Page) :
    ∀ st : LoopState, (runPages cid rt s st).total = st.total + (consumedRecords s).length := by
  induction s with
  | nil => intro st; simp [runPages, consumedRecords]
  | cons p rest ih =>
    intro st
    simp only [runPages]
    by_cases hc : strTruthy p.cursor = true
    · rw [if_pos hc, ih, processPage_total]
      simp [consumedRecords, hc]
      omega
    · rw [if_neg hc, processPage_total]
      simp [consumedRecords, hc]

theorem runPages_calls (cid : String) (rt : Option String) (s : List Page) :
    ∀ st : LoopState, (runPages cid rt s st).calls = st.calls + numCalls s := by
  induction s with
  | nil => intro st; simp [runPages, numCalls]
  | cons p rest ih =>
    intro st
    simp only [runPages]
    by_cases hc : strTruthy p.cursor = true
    · rw [if_pos hc, ih, processPage_calls]
      simp [numCalls, hc]
      omega
    · rw [if_neg hc, processPage_calls]
      simp [numCalls, hc]

theorem runPages_counts (cid : String) (rt : Option String) (s : List Page) :
    ∀ st : LoopState, (runPages cid rt s st).newCount + (runPages cid rt s st).existingCount
      = st.newCount + st.existingCount + (consumedRecords s).length := by
  induction s with
  | nil => intro st; simp [runPages, consumedRecords]
  | cons p rest ih =>
    intro st
    simp only [runPages]
    by_cases hc : strTruthy p.cursor = true
    · rw [if_pos hc, ih, processPage_counts]
      simp [consumedRecords, hc]
      omega
    · rw [if_neg hc, processPage_counts]
      simp [consumedRecords, hc]

theorem runPages_store (cid : String) (rt : Option String) (s : List Page) :
    ∀ st : LoopState, ∃ t, (runPages cid rt s st).store = st.store ++ t ∧
      ∀ x ∈ t, ∃ r ∈ consumedRecords s, x = normalizeRecord cid rt r := by
  induction s with
  | nil =>
    intro st
    exact ⟨[], by simp [runPages], by simp⟩
  | cons p rest ih =>
    intro st
    simp only [runPages]
    by_cases hc : strTruthy p.cursor = true
    · rw [if_pos hc]
      obtain ⟨t1, ht1, hm1⟩ := processPage_store cid rt p st
      obtain ⟨t2, ht2, hm2⟩ := ih (processPage cid rt p st)
      refine ⟨t1 ++ t2, ?_, ?_⟩
      · rw [ht2, ht1, List.append_assoc]
      · intro x hx
        rcases List.mem_append.mp hx with h | h
        · obtain ⟨r, hr, hxr⟩ := hm1 x h
          refine ⟨r, ?_, hxr⟩
          simp only [consumedRecords]
          exact List.mem_append.mpr (Or.inl hr)
        · obtain ⟨r, hr, hxr⟩ := hm2 x h
          refine ⟨r, ?_, hxr⟩
          simp only [consumedRecords, hc, if_true]
          exact List.mem_append.mpr (Or.inr hr)
    · rw [if_neg hc]
      obtain ⟨t1, ht1, hm1⟩ := processPage_store cid rt p st
      refine ⟨t1, ht1, ?_⟩
      intro x hx
      obtain ⟨r, hr, hxr⟩ := hm1 x hx
      refine ⟨r, ?_, hxr⟩
      simp only [consumedRecords]
      exact List.mem_append.mpr (Or.inl hr)

theorem runPages_keys (cid : String) (rt : Option String) (s : List Page) :
    ∀ st : LoopState, ∀ r ∈ consumedRecords s,
      keyInStore (runPages cid rt s st).store r.id cid rt = true := by
  induction s with
  | nil => intro st r hr; simp [consumedRecords] at hr
  | cons p rest ih =>
    intro st r hr
    simp only [consumedRecords] at hr
    simp only [runPages]
    by_cases hc : strTruthy p.cursor = true
    · rw [if_pos hc]
      rw [if_pos hc] at hr
      rcases List.mem_append.mp hr with h | h
      · obtain ⟨t, ht, _⟩ := runPages_store cid rt rest (processPage cid rt p st)
        rw [ht]
        exact keyInStore_mono _ _ _ _ _ (processPage_keys cid rt p st r h)
      · exact ih (processPage cid rt p st) r h
    · rw [if_neg hc]
      rw [if_neg hc] at hr
      simp only [List.append_nil] at hr
      exact processPage_keys cid rt p st r hr

theorem runPages_existing (cid : String) (rt : Option String) (s : List Page) :
    ∀ st : LoopState, (∀ r ∈ consumedRecords s, keyInStore st.store r.id cid rt = true) →
      runPages cid rt s st =
        { st with
          existingCount := st.existingCount + (consumedRecords s).length,
          total := st.total + (consumedRecords s).length,
          calls := st.calls + numCalls s } := by
  induction s with
  | nil =>
    intro st _
    cases st
    simp [runPages, consumedRecords, numCalls]
  | cons p rest ih =>
    intro st h
    obtain ⟨store, nc, ec, tot, cl⟩ := st
    have hp : ∀ r ∈ p.records, keyInStore store r.id cid rt = true := by
      intro r hr
      exact h r (by simp only [consumedRecords]; exact List.mem_append.mpr (Or.inl hr))
    simp only [runPages]
    rw [processPage_existing cid rt p ⟨store, nc, ec, tot, cl⟩ hp]
    by_cases hc : strTruthy p.cursor = true
    · rw [if_pos hc]
      have hcons : consumedRecords (p :: rest) = p.records ++ consumedRecords rest := by
        simp [consumedRecords, hc]
      rw [hcons] at h
      rw [ih ⟨store, nc, ec + p.records.length, tot + p.records.length, cl + 1⟩
        (fun r hr => h r (List.mem_append.mpr (Or.inr hr)))]
      simp [hcons, numCalls, hc]
      omega
    · rw [if_neg hc]
      simp [consumedRecords, numCalls, hc]

theorem runPages_uniqueKeys (cid : String) (rt : Option String) (s : List Page) :
    ∀ st : LoopState, uniqueKeys st.store → uniqueKeys (runPages cid rt s st).store := by
  induction s with
  | nil => intro st h; exact h
  | cons p rest ih =>
    intro st h
    simp only [runPages]
    by_cases hc : strTruthy p.cursor = true
    · rw [if_pos hc]
      exact ih _ (processPage_uniqueKeys cid rt p st h)
    · rw [if_neg hc]
      exact processPage_uniqueKeys cid rt p st h

theorem handleGET_success (env : Env) (req : ImportRequest)
    (hauth : strTruthy req.authCustomerId = true)
    (hact : strTruthy req.action = true)
    (hinst : (isCustomForm env.defaults (req.action.getD "") && !(strTruthy req.instanceKey)) = false)
    (c : String) (cs : List String) (hconn : env.connections = c :: cs) :
    handleGET env req =
      { response := ApiResult.ok
          (importLoop (req.authCustomerId.getD "")
            (stampedRecordType env.defaults (req.action.getD "") req.instanceKey)
            env.script env.store0).total
          (importLoop (req.authCustomerId.getD "")
            (stampedRecordType env.defaults (req.action.getD "") req.instanceKey)
            env.script env.store0).newCount
          (importLoop (req.authCustomerId.getD "")
            (stampedRecordType env.defaults (req.action.getD "") req.instanceKey)
            env.script env.store0).existingCount,
        store := (importLoop (req.authCustomerId.getD "")
          (stampedRecordType env.defaults (req.action.getD "") req.instanceKey)
          env.script env.store0).store,
        externalCalls := (importLoop (req.authCustomerId.getD "")
          (stampedRecordType env.defaults (req.action.getD "") req.instanceKey)
          env.script env.store0).calls } := by
  simp only [handleGET, hauth, hact, hinst, hconn, if_true, Bool.false_eq_true, if_false,
    List.head?_cons]

/-- Claim C5: for every request whose action key is classified as a
custom-style action and whose instance key is absent (falsy), the handler
fails with the InvalidRequest response for the missing instance key, leaves
the store untouched and issues no external action call. -/
theorem custom_action_missing_instanceKey (env : Env) (req : ImportRequest)
    (hauth : strTruthy req.authCustomerId = true)
    (hact : strTruthy req.action = true)
    (hcustom : isCustomForm env.defaults (req.action.getD "") = true)
    (hinst : strTruthy req.instanceKey = false) :
    handleGET env req =
      { response := ApiResult.instanceKeyRequired, store := env.store0,
        externalCalls := 0 } := by
  simp [handleGET, hauth, hact, hcustom, hinst]

/-- Witness for C5 at a concrete input: a custom action with no configured
default type match and an absent instance key. -/
theorem custom_action_missing_instanceKey_witness :
    strTruthy (some "cust") = true ∧ strTruthy (some "get-things") = true ∧
    isCustomForm ["equipment"] ((some "get-things").getD "") = true ∧
    strTruthy (none : Option String) = false ∧
    handleGET
      { defaults := ["equipment"], connections := ["c1"],
        script := [], store0 := [] }
      { authCustomerId := some "cust", action := some "get-things", instanceKey := none } =
      { response := ApiResult.instanceKeyRequired, store := [], externalCalls := 0 } :=
  ⟨by decide, by decide, by decide, by decide,
    custom_action_missing_instanceKey _ _ (by decide) (by decide) (by decide) (by decide)⟩

/-- Claim C6: for every authenticated, well-formed request whose tenant has
no connections, the handler returns the soft no-connection result (success
false, no thrown error), leaves the store untouched and issues no external
action call. -/
theorem no_connection_soft_result (env : Env) (req : ImportRequest)
    (hauth : strTruthy req.authCustomerId = true)
    (hact : strTruthy req.action = true)
    (hinst : (isCustomForm env.defaults (req.action.getD "")
      && !(strTruthy req.instanceKey)) = false)
    (hconn : env.connections = []) :
    handleGET env req =
      { response := ApiResult.noConnection, store := env.store0,
        externalCalls := 0 } := by
  simp [handleGET, hauth, hact, hinst, hconn]

/-- Witness for C6 at a concrete input: a valid default-action request for a
tenant whose connection listing is empty. -/
theorem no_connection_soft_result_witness :
    strTruthy (some "cust") = true ∧ strTruthy (some "get-equipment") = true ∧
    (isCustomForm ["equipment"] ((some "get-equipment").getD "")
      && !(strTruthy (none : Option String))) = false ∧
    handleGET
      { defaults := ["equipment"], connections := [],
        script := [{ records := [{ id := some "1", name := some "A" }], cursor := none }],
        store0 := [] }
      { authCustomerId := some "cust", action := some "get-equipment", instanceKey := none } =
      { response := ApiResult.noConnection, store := [], externalCalls := 0 } :=
  ⟨by decide, by decide, by decide,
    no_connection_soft_result _ _ (by decide) (by decide) (by decide) rfl⟩

/-- Claim C8: the pipeline only ever inserts; every record present in the
store before the run is still present, unchanged and in its original
position afterwards — the final store is the initial store with the newly
inserted records appended. -/
theorem import_insert_only (env : Env) (req : ImportRequest) :
    ∃ t, (handleGET env req).store = env.store0 ++ t := by
  unfold handleGET
  by_cases h1 : strTruthy req.authCustomerId = true
  · rw [if_pos h1]
    by_cases h2 : strTruthy req.action = true
    · rw [if_pos h2]
      by_cases h3 : (isCustomForm env.defaults (req.action.getD "")
          && !(strTruthy req.instanceKey)) = true
      · rw [if_pos h3]
        exact ⟨[], by simp⟩
      · rw [if_neg h3]
        cases hc : env.connections.head? with
        | none => exact ⟨[], by simp⟩
        | some c =>
          obtain ⟨t, ht, _⟩ := runPages_store (req.authCustomerId.getD "")
            (stampedRecordType env.defaults (req.action.getD "") req.instanceKey)
            env.script
            { store := env.store0, newCount := 0, existingCount := 0, total := 0, calls := 0 }
          exact ⟨t, ht⟩
    · rw [if_neg h2]
      exact ⟨[], by simp⟩
  · rw [if_neg h1]
    exact ⟨[], by simp⟩

/-- Claim C2: if the key triple (id, customerId, recordType) is unique in
the store before a run of the handler, it is still unique after the run: no
duplicate row is created, within a page, across the pages of one run, or on
re-import of the same external id under the same tenant and type. -/
theorem import_preserves_uniqueKeys (env : Env) (req : ImportRequest)
    (h : uniqueKeys env.store0) :
    uniqueKeys (handleGET env req).store := by
  unfold handleGET
  by_cases h1 : strTruthy req.authCustomerId = true
  · rw [if_pos h1]
    by_cases h2 : strTruthy req.action = true
    · rw [if_pos h2]
      by_cases h3 : (isCustomForm env.defaults (req.action.getD "")
          && !(strTruthy req.instanceKey)) = true
      · rw [if_pos h3]
        exact h
      · rw [if_neg h3]
        cases hc : env.connections.head? with
        | none => exact h
        | some c =>
          exact runPages_uniqueKeys (req.authCustomerId.getD "")
            (stampedRecordType env.defaults (req.action.getD "") req.instanceKey)
            env.script
            { store := env.store0, newCount := 0, existingCount := 0, total := 0, calls := 0 }
            h
    · rw [if_neg h2]
      exact h
  · rw [if_neg h1]
    exact h

/-- Witness for C2 at a concrete input: a run over two pages that repeat the
same external id, starting from a store that already holds it, ends with the
key triple still unique. -/
theorem import_preserves_uniqueKeys_witness :
    uniqueKeys [(⟨some "1", "Old", "cust", some "get-equipment"⟩ : StoredRecord)] ∧
    uniqueKeys (handleGET
      ⟨["equipment"], ["c1"],
        [⟨[⟨some "1", some "A"⟩, ⟨some "2", some "B"⟩], some "c2"⟩,
         ⟨[⟨some "1", some "A"⟩], none⟩],
        [⟨some "1", "Old", "cust", some "get-equipment"⟩]⟩
      ⟨some "cust", some "get-equipment", none⟩).store :=
  ⟨by decide, import_preserves_uniqueKeys _ _ (by decide)⟩

/-- Claim C9: every successful response of the handler satisfies
recordsCount = newRecordsCount + existingRecordsCount, since each observed
record bumps exactly one of the two counters. -/
theorem counters_consistent (env : Env) (req : ImportRequest) (rc nc ec : Nat)
    (h : (handleGET env req).response = ApiResult.ok rc nc ec) :
    rc = nc + ec := by
  unfold handleGET at h
  by_cases h1 : strTruthy req.authCustomerId = true
  · rw [if_pos h1] at h
    by_cases h2 : strTruthy req.action = true
    · rw [if_pos h2] at h
      by_cases h3 : (isCustomForm env.defaults (req.action.getD "")
          && !(strTruthy req.instanceKey)) = true
      · rw [if_pos h3] at h
        simp at h
      · rw [if_neg h3] at h
        cases hc : env.connections.head? with
        | none =>
          rw [hc] at h
          simp at h
        | some c =>
          rw [hc] at h
          have h' : ApiResult.ok
              (importLoop (req.authCustomerId.getD "")
                (stampedRecordType env.defaults (req.action.getD "") req.instanceKey)
                env.script env.store0).total
              (importLoop (req.authCustomerId.getD "")
                (stampedRecordType env.defaults (req.action.getD "") req.instanceKey)
                env.script env.store0).newCount
              (importLoop (req.authCustomerId.getD "")
                (stampedRecordType env.defaults (req.action.getD "") req.instanceKey)
                env.script env.store0).existingCount = ApiResult.ok rc nc ec := h
          rw [ApiResult.ok.injEq] at h'
          obtain ⟨e1, e2, e3⟩ := h'
          have ht := runPages_total (req.authCustomerId.getD "")
            (stampedRecordType env.defaults (req.action.getD "") req.instanceKey)
            env.script
            { store := env.store0, newCount := 0, existingCount := 0, total := 0, calls := 0 }
          have hcnt := runPages_counts (req.authCustomerId.getD "")
            (stampedRecordType env.defaults (req.action.getD "") req.instanceKey)
            env.script
            { store := env.store0, newCount := 0, existingCount := 0, total := 0, calls := 0 }
          simp only [importLoop] at e1 e2 e3
          simp at ht hcnt
          omega
    · rw [if_neg h2] at h
      simp at h
  · rw [if_neg h1] at h
    simp at h

/-- Witness for C9 at a concrete input: one page of three records, one of
which already exists in the store, giving recordsCount 3 = 2 new + 1
existing. -/
theorem counters_consistent_witness :
    (handleGET
      ⟨["equipment"], ["c1"],
        [⟨[⟨some "1", some "A"⟩, ⟨some "2", some "B"⟩, ⟨some "3", some "C"⟩], none⟩],
        [⟨some "1", "Old", "cust", some "get-equipment"⟩]⟩
      ⟨some "cust", some "get-equipment", none⟩).response = ApiResult.ok 3 2 1 ∧
    3 = 2 + 1 :=
  ⟨by decide,
    counters_consistent
      ⟨["equipment"], ["c1"],
        [⟨[⟨some "1", some "A"⟩, ⟨some "2", some "B"⟩, ⟨some "3", some "C"⟩], none⟩],
        [⟨some "1", "Old", "cust", some "get-equipment"⟩]⟩
      ⟨some "cust", some "get-equipment", none⟩ 3 2 1 (by decide)⟩

/-- Claim C4: on a scripted source of four pages whose first three cursors
are truthy and whose fourth is falsy, the loop issues exactly four external
action calls and its recordsCount is the sum of the four page sizes; pages
with zero records but a truthy cursor do not terminate the loop. -/
theorem pagination_cursor_driven (cid : String) (rt : Option String)
    (p1 p2 p3 p4 : Page) (store0 : List StoredRecord)
    (h1 : strTruthy p1.cursor = true) (h2 : strTruthy p2.cursor = true)
    (h3 : strTruthy p3.cursor = true) (h4 : strTruthy p4.cursor = false) :
    (importLoop cid rt [p1, p2, p3, p4] store0).calls = 4 ∧
    (importLoop cid rt [p1, p2, p3, p4] store0).total =
      p1.records.length + p2.records.length + p3.records.length
        + p4.records.length := by
  have hcalls := runPages_calls cid rt [p1, p2, p3, p4]
    { store := store0, newCount := 0, existingCount := 0, total := 0, calls := 0 }
  have ht := runPages_total cid rt [p1, p2, p3, p4]
    { store := store0, newCount := 0, existingCount := 0, total := 0, calls := 0 }
  simp [numCalls, consumedRecords, h1, h2, h3, h4] at hcalls ht
  unfold importLoop
  exact ⟨by omega, by omega⟩

/-- Witness for C4 at a concrete input: cursors c1, c2, c3 then empty, with
an empty second page, giving 4 calls and 1 + 0 + 2 + 1 = 4 records. -/
theorem pagination_cursor_driven_witness :
    strTruthy (some "c1") = true ∧ strTruthy (some "c2") = true ∧
    strTruthy (some "c3") = true ∧ strTruthy (none : Option String) = false ∧
    ((importLoop "cust" (some "get-equipment")
        [⟨[⟨some "1", some "A"⟩], some "c1"⟩, ⟨[], some "c2"⟩,
         ⟨[⟨some "2", none⟩, ⟨some "3", some "C"⟩], some "c3"⟩,
         ⟨[⟨some "4", some "D"⟩], none⟩] []).calls = 4 ∧
     (importLoop "cust" (some "get-equipment")
        [⟨[⟨some "1", some "A"⟩], some "c1"⟩, ⟨[], some "c2"⟩,
         ⟨[⟨some "2", none⟩, ⟨some "3", some "C"⟩], some "c3"⟩,
         ⟨[⟨some "4", some "D"⟩], none⟩] []).total =
       1 + 0 + 2 + 1) :=
  ⟨by decide, by decide, by decide, by decide,
    pagination_cursor_driven _ _ _ _ _ _ _ (by decide) (by decide) (by decide) (by decide)⟩

/-- Claim C7: a raw record whose display name is falsy is normalized to use
its external id as name when that is truthy, and the literal
"Unnamed Record" otherwise, in that priority order; when its key triple is
not yet in the store, the save step persists it (appends it to the store)
with exactly that name. -/
theorem missing_name_fallback (cid : String) (rt : Option String) (st : LoopState)
    (r : RawRecord) (hname : strTruthy r.name = false)
    (habsent : keyInStore st.store r.id cid rt = false) :
    (normalizeRecord cid rt r).name
      = (if strTruthy r.id then r.id.getD "" else "Unnamed Record") ∧
    (saveOne cid st (normalizeRecord cid rt r)).store
      = st.store ++ [normalizeRecord cid rt r] := by
  constructor
  · simp [normalizeRecord, displayName, hname]
  · unfold saveOne
    rw [if_neg (by simp [normalizeRecord, habsent])]

/-- Witness for C7 at a concrete input: a record with no name but an id is
appended with the id as its name. -/
theorem missing_name_fallback_witness :
    strTruthy ((⟨some "7", none⟩ : RawRecord).name) = false ∧
    keyInStore (([] : List StoredRecord)) (some "7") "cust" (some "t") = false ∧
    ((normalizeRecord "cust" (some "t") ⟨some "7", none⟩).name
        = (if strTruthy ((⟨some "7", none⟩ : RawRecord).id)
            then ((⟨some "7", none⟩ : RawRecord).id).getD "" else "Unnamed Record") ∧
      (saveOne "cust" ⟨[], 0, 0, 0, 0⟩ (normalizeRecord "cust" (some "t") ⟨some "7", none⟩)).store
        = [] ++ [normalizeRecord "cust" (some "t") ⟨some "7", none⟩]) :=
  ⟨by decide, by decide, missing_name_fallback _ _ _ _ (by decide) (by decide)⟩

/-- Claim C10: an action key that does not start with "get-" is classified
non-custom: the handler never answers the missing-instance-key
InvalidRequest for it, and every record the run appends to the store is
stamped with recordType equal to the action key itself. -/
theorem non_get_action_not_custom (env : Env) (req : ImportRequest) (a : String)
    (ha : req.action = some a)
    (hp : a.data.take 4 ≠ "get-".data) :
    (handleGET env req).response ≠ ApiResult.instanceKeyRequired ∧
    ∃ t, (handleGET env req).store = env.store0 ++ t ∧
      ∀ x ∈ t, x.recordType = some a := by
  have hform : formIdOf a = none := by simp [formIdOf, hp]
  have hcustom : isCustomForm env.defaults a = false := by
    simp [isCustomForm, hform]
  have hrt : stampedRecordType env.defaults a req.instanceKey = some a := by
    simp [stampedRecordType, hcustom]
  unfold handleGET
  rw [ha]
  simp only [Option.getD_some]
  by_cases h1 : strTruthy req.authCustomerId = true
  · rw [if_pos h1]
    by_cases h2 : strTruthy (some a) = true
    · rw [if_pos h2]
      rw [if_neg (by simp [hcustom])]
      cases hc : env.connections.head? with
      | none =>
        refine ⟨by simp, ⟨[], by simp, by simp⟩⟩
      | some c =>
        constructor
        · simp
        · obtain ⟨t, ht, hm⟩ := runPages_store (req.authCustomerId.getD "")
            (stampedRecordType env.defaults a req.instanceKey) env.script
            { store := env.store0, newCount := 0, existingCount := 0, total := 0, calls := 0 }
          refine ⟨t, ht, ?_⟩
          intro x hx
          obtain ⟨r, _, rfl⟩ := hm x hx
          rw [show (normalizeRecord (req.authCustomerId.getD "")
            (stampedRecordType env.defaults a req.instanceKey) r).recordType
              = stampedRecordType env.defaults a req.instanceKey from rfl]
          exact hrt
    · rw [if_neg h2]
      exact ⟨by simp, ⟨[], by simp, by simp⟩⟩
  · rw [if_neg h1]
    exact ⟨by simp, ⟨[], by simp, by simp⟩⟩

/-- Witness for C10 at a concrete input: the action "sync-items" does not
start with "get-", is accepted without an instance key, and stamps
recordType "sync-items" on the inserted record. -/
theorem non_get_action_not_custom_witness :
    (⟨some "cust", some "sync-items", none⟩ : ImportRequest).action = some "sync-items" ∧
    "sync-items".data.take 4 ≠ "get-".data ∧
    ((handleGET ⟨["equipment"], ["c1"], [⟨[⟨some "9", some "Z"⟩], none⟩], []⟩
        ⟨some "cust", some "sync-items", none⟩).response ≠ ApiResult.instanceKeyRequired ∧
     ∃ t, (handleGET ⟨["equipment"], ["c1"], [⟨[⟨some "9", some "Z"⟩], none⟩], []⟩
        ⟨some "cust", some "sync-items", none⟩).store = [] ++ t ∧
       ∀ x ∈ t, x.recordType = some "sync-items") :=
  ⟨rfl, by decide, non_get_action_not_custom _ _ _ rfl (by decide)⟩

theorem importLoop_idempotent (cid : String) (rt : Option String) (script : List Page)
    (store0 : List StoredRecord) :
    (importLoop cid rt script (importLoop cid rt script store0).store).newCount = 0 ∧
    (importLoop cid rt script (importLoop cid rt script store0).store).existingCount
      = (importLoop cid rt script store0).total ∧
    (importLoop cid rt script (importLoop cid rt script store0).store).total
      = (importLoop cid rt script store0).total := by
  unfold importLoop
  have hkeys := runPages_keys cid rt script
    { store := store0, newCount := 0, existingCount := 0, total := 0, calls := 0 }
  have hex := runPages_existing cid rt script
    { store := (runPages cid rt script
        { store := store0, newCount := 0, existingCount := 0, total := 0, calls := 0 }).store,
      newCount := 0, existingCount := 0, total := 0, calls := 0 }
    (fun r hr => hkeys r hr)
  have ht1 := runPages_total cid rt script
    { store := store0, newCount := 0, existingCount := 0, total := 0, calls := 0 }
  rw [hex]
  simp at ht1
  simp [ht1]

/-- Claim C1: repeated import is idempotent — when the external source is
scripted identically both times, a second invocation of the handler starting
from the store produced by the first returns newRecordsCount 0 and
existingRecordsCount equal to the recordsCount of the first invocation. -/
theorem import_idempotent (defs conns : List String) (script : List Page)
    (store0 : List StoredRecord) (req : ImportRequest)
    (hauth : strTruthy req.authCustomerId = true)
    (hact : strTruthy req.action = true)
    (hinst : (isCustomForm defs (req.action.getD "")
      && !(strTruthy req.instanceKey)) = false)
    (c : String) (cs : List String) (hconn : conns = c :: cs) :
    ∃ rc nc ec,
      (handleGET ⟨defs, conns, script, store0⟩ req).response = ApiResult.ok rc nc ec ∧
      (handleGET ⟨defs, conns, script,
          (handleGET ⟨defs, conns, script, store0⟩ req).store⟩ req).response
        = ApiResult.ok rc 0 rc := by
  have hs1 := handleGET_success ⟨defs, conns, script, store0⟩ req hauth hact hinst c cs hconn
  have hs2 := handleGET_success ⟨defs, conns, script,
    (importLoop (req.authCustomerId.getD "")
      (stampedRecordType defs (req.action.getD "") req.instanceKey) script store0).store⟩
    req hauth hact hinst c cs hconn
  obtain ⟨hnc, hec, htt⟩ := importLoop_idempotent (req.authCustomerId.getD "")
    (stampedRecordType defs (req.action.getD "") req.instanceKey) script store0
  rw [hs1]
  refine ⟨(importLoop (req.authCustomerId.getD "")
      (stampedRecordType defs (req.action.getD "") req.instanceKey) script store0).total,
    (importLoop (req.authCustomerId.getD "")
      (stampedRecordType defs (req.action.getD "") req.instanceKey) script store0).newCount,
    (importLoop (req.authCustomerId.getD "")
      (stampedRecordType defs (req.action.getD "") req.instanceKey) script store0).existingCount,
    rfl, ?_⟩
  show (handleGET ⟨defs, conns, script,
      (importLoop (req.authCustomerId.getD "")
        (stampedRecordType defs (req.action.getD "") req.instanceKey) script store0).store⟩
      req).response
    = ApiResult.ok (importLoop (req.authCustomerId.getD "")
        (stampedRecordType defs (req.action.getD "") req.instanceKey) script store0).total 0
      (importLoop (req.authCustomerId.getD "")
        (stampedRecordType defs (req.action.getD "") req.instanceKey) script store0).total
  rw [hs2]
  show ApiResult.ok
      (importLoop (req.authCustomerId.getD "")
        (stampedRecordType defs (req.action.getD "") req.instanceKey) script
        (importLoop (req.authCustomerId.getD "")
          (stampedRecordType defs (req.action.getD "") req.instanceKey) script store0).store).total
      (importLoop (req.authCustomerId.getD "")
        (stampedRecordType defs (req.action.getD "") req.instanceKey) script
        (importLoop (req.authCustomerId.getD "")
          (stampedRecordType defs (req.action.getD "") req.instanceKey) script store0).store).newCount
      (importLoop (req.authCustomerId.getD "")
        (stampedRecordType defs (req.action.getD "") req.instanceKey) script
        (importLoop (req.authCustomerId.getD "")
          (stampedRecordType defs (req.action.getD "") req.instanceKey) script store0).store).existingCount
    = ApiResult.ok (importLoop (req.authCustomerId.getD "")
        (stampedRecordType defs (req.action.getD "") req.instanceKey) script store0).total 0
      (importLoop (req.authCustomerId.getD "")
        (stampedRecordType defs (req.action.getD "") req.instanceKey) script store0).total
  rw [hnc, hec, htt]

/-- Witness for C1 at a concrete input: importing the same two-page script
twice, the first call reports 3 new of 3, the second 0 new and 3 existing. -/
theorem import_idempotent_witness :
    strTruthy (some "cust") = true ∧ strTruthy (some "get-equipment") = true ∧
    (isCustomForm ["equipment"] ((some "get-equipment" : Option String).getD "")
      && !(strTruthy (none : Option String))) = false ∧
    ["c1"] = "c1" :: ([] : List String) ∧
    (∃ rc nc ec,
      (handleGET ⟨["equipment"], ["c1"],
          [⟨[⟨some "1", some "A"⟩, ⟨some "2", some "B"⟩], some "next"⟩,
           ⟨[⟨some "3", none⟩], none⟩], []⟩
        ⟨some "cust", some "get-equipment", none⟩).response = ApiResult.ok rc nc ec ∧
      (handleGET ⟨["equipment"], ["c1"],
          [⟨[⟨some "1", some "A"⟩, ⟨some "2", some "B"⟩], some "next"⟩,
           ⟨[⟨some "3", none⟩], none⟩],
          (handleGET ⟨["equipment"], ["c1"],
              [⟨[⟨some "1", some "A"⟩, ⟨some "2", some "B"⟩], some "next"⟩,
               ⟨[⟨some "3", none⟩], none⟩], []⟩
            ⟨some "cust", some "get-equipment", none⟩).store⟩
        ⟨some "cust", some "get-equipment", none⟩).response = ApiResult.ok rc 0 rc) :=
  ⟨by decide, by decide, by decide, rfl,
    import_idempotent ["equipment"] ["c1"]
      [⟨[⟨some "1", some "A"⟩, ⟨some "2", some "B"⟩], some "next"⟩,
       ⟨[⟨some "3", none⟩], none⟩] []
      ⟨some "cust", some "get-equipment", none⟩
      (by decide) (by decide) (by decide) "c1" [] rfl⟩

/-- Claim C3 (amended): the recordType stamped on every record a run of the
handler appends to the store is the instanceKey when the action is
classified custom, and otherwise the action key itself — not the stripped
logical type name. -/
theorem recordType_stamping (env : Env) (req : ImportRequest) (a : String)
    (ha : req.action = some a) :
    ∃ t, (handleGET env req).store = env.store0 ++ t ∧
      ∀ x ∈ t, x.recordType =
        (if isCustomForm env.defaults a then req.instanceKey else some a) := by
  unfold handleGET
  rw [ha]
  simp only [Option.getD_some]
  by_cases h1 : strTruthy req.authCustomerId = true
  · rw [if_pos h1]
    by_cases h2 : strTruthy (some a) = true
    · rw [if_pos h2]
      by_cases h3 : (isCustomForm env.defaults a && !(strTruthy req.instanceKey)) = true
      · rw [if_pos h3]
        exact ⟨[], by simp, by simp⟩
      · rw [if_neg h3]
        cases hc : env.connections.head? with
        | none => exact ⟨[], by simp, by simp⟩
        | some c =>
          obtain ⟨t, ht, hm⟩ := runPages_store (req.authCustomerId.getD "")
            (stampedRecordType env.defaults a req.instanceKey) env.script
            { store := env.store0, newCount := 0, existingCount := 0, total := 0, calls := 0 }
          refine ⟨t, ht, ?_⟩
          intro x hx
          obtain ⟨r, _, rfl⟩ := hm x hx
          rfl
    · rw [if_neg h2]
      exact ⟨[], by simp, by simp⟩
  · rw [if_neg h1]
    exact ⟨[], by simp, by simp⟩

/-- Witness for the amended C3 at a concrete input: the default action
"get-equipment" stamps recordType "get-equipment" on the inserted record. -/
theorem recordType_stamping_witness :
    (⟨some "cust", some "get-equipment", none⟩ : ImportRequest).action
      = some "get-equipment" ∧
    (∃ t, (handleGET ⟨defaultFormTypes, ["c1"], [⟨[⟨some "1", some "A"⟩], none⟩], []⟩
        ⟨some "cust", some "get-equipment", none⟩).store = [] ++ t ∧
      ∀ x ∈ t, x.recordType =
        (if isCustomForm defaultFormTypes "get-equipment"
          then (⟨some "cust", some "get-equipment", none⟩ : ImportRequest).instanceKey
          else some "get-equipment")) :=
  ⟨rfl, recordType_stamping _ _ _ rfl⟩

/-- Counterexample to claim C3 as stated: for the default action
"get-equipment" the pipeline stores recordType "get-equipment" — the full
action key — whereas the claim requires the action's own logical type
"equipment"; the stored record's recordType therefore differs from the
value the claim predicts. -/
theorem recordType_counterexample :
    (handleGET ⟨defaultFormTypes, ["c1"], [⟨[⟨some "1", some "Pump"⟩], none⟩], []⟩
      ⟨some "cust", some "get-equipment", none⟩).store
      = [⟨some "1", "Pump", "cust", some "get-equipment"⟩] ∧
    isCustomForm defaultFormTypes "get-equipment" = false ∧
    (some "get-equipment" : Option String) ≠ some "equipment" := by
  refine ⟨by decide, by decide, by decide⟩
